import Mathlib

/-!
Verification of the `datetime` Go library (wall-clock times, sorting
priorities, UTC-offset parsing) against its natural-language specification.
Definitions are shallow embeddings of the Go source: `time.go` (Time engine,
classifier) and the timezone file (offset grammar, Timezone constructors).
Go strings are modelled as lists of characters; Go `int` as `Int` (or `Nat`
where the source value is provably non-negative); `time.Duration` arguments
restricted to whole minutes are modelled by their minute count.
-/

namespace Datetime

/-- Go strings (ASCII inputs) modelled as character lists. -/
abbrev GoStr := List Char

/-- `Time` stores hours and minutes (the Go struct embeds a `time.Time`;
only the hour and minute fields are observable through the API under study). -/
structure Time where
  hour : Nat
  minute : Nat
deriving DecidableEq

/-- `EmptyTime` is the zero value: the zero `time.Time` has hour 0, minute 0. -/
def EmptyTime : Time := ⟨0, 0⟩

/-- Minute-of-day of a time value (derived observation `hour*60 + minute`). -/
def minuteOfDay (t : Time) : Nat := t.hour * 60 + t.minute

/-- `NewTime` builds a time via `time.Date(0,0,0,hour,minute,...)`, which
normalizes arbitrary components into an instant; the observable hour and
minute fields are the mod-1440 minute-of-day decomposed. -/
def NewTime (hour minute : Int) : Time :=
  let mm := (hour * 60 + minute)% 1440
  ⟨mm.toNat / 60, mm.toNat % 60⟩

/-- `t.addTime(time.Minute, k)` shifts the underlying instant by `k` minutes;
observably the minute-of-day moves by `k` modulo 1440. -/
def addTimeMinutes (t : Time) (k : Int) : Time :=
  let mm := ((t.hour * 60 + t.minute : Int) + k)% 1440
  ⟨mm.toNat / 60, mm.toNat % 60⟩

/-- `MinutesFromDayBegin` from `time.go` (note: the first branch subtracts
`t.Hour()`, exactly as the source does). -/
def MinutesFromDayBegin (t dayStartTime : Time) : Int :=
  let hours : Int :=
    if t.hour < dayStartTime.hour then 24 - (dayStartTime.hour : Int) - (t.hour : Int)
    else (t.hour : Int) - (dayStartTime.hour : Int)
  hours * 60 + (t.minute : Int)

/-- `MinutesTillDayEnd` from `time.go`. -/
def MinutesTillDayEnd (t dayStartTime : Time) : Int :=
  1440 - MinutesFromDayBegin t dayStartTime

/-- The `for minutes > minutesInDay { minutes -= minutesInDay }` loop of
`AddTime`/`SubTime`, with a structural fuel argument (each iteration
subtracts 1440, so `n` units of fuel always outlast the loop). -/
def reduceDayAux : Nat → Nat → Nat
  | 0, n => n
  | fuel + 1, n => if n > 1440 then reduceDayAux fuel (n - 1440) else n

/-- The duration-reduction loop of `AddTime`/`SubTime`. -/
def reduceDayLoop (n : Nat) : Nat := reduceDayAux n n

/-- `AddTime` from `time.go`, for a duration of `howMuchMinutes` whole
minutes (the source truncates the duration to whole minutes first). -/
def AddTime (t : Time) (howMuchMinutes : Nat) : Time :=
  let minutes := reduceDayLoop howMuchMinutes
  let tillEnd := MinutesTillDayEnd t EmptyTime
  if (minutes : Int) < tillEnd then addTimeMinutes t (minutes : Int)
  else addTimeMinutes (NewTime 0 0) ((minutes : Int) - tillEnd)

/-- `SubTime` from `time.go` (`subTime` is `addTime` with a negated count). -/
def SubTime (t : Time) (howMuchMinutes : Nat) : Time :=
  let minutes := reduceDayLoop howMuchMinutes
  let fromBegin := MinutesFromDayBegin t EmptyTime
  if (minutes : Int) < fromBegin then addTimeMinutes t (-(minutes : Int))
  else addTimeMinutes (NewTime 23 59) (-((minutes : Int) - fromBegin - 1))

/-- `IsBefore`: receiver is before or equal to argument. -/
def IsBefore (t other : Time) : Bool :=
  if t.hour > other.hour then false
  else if t.hour = other.hour ∧ t.minute > other.minute then false
  else true

/-- `IsArgBefore`: argument is before or equal to receiver. -/
def IsArgBefore (t other : Time) : Bool :=
  if t.hour < other.hour then false
  else if t.hour = other.hour ∧ t.minute < other.minute then false
  else true

/-- `IsAfter` is defined in the source as `IsArgBefore`. -/
def IsAfter (t other : Time) : Bool := IsArgBefore t other

/-- `RangeUp` from `time.go`, as a duration in minutes. -/
def RangeUp (low high : Time) : Int :=
  let hours0 : Int :=
    if high.hour < low.hour then 24 - (low.hour : Int) + (high.hour : Int)
    else (high.hour : Int) - (low.hour : Int)
  if high.minute < low.minute then
    let hours1 := hours0 - 1
    let hours2 := if hours1 < 0 then 23 else hours1
    hours2 * 60 + (60 - (low.minute : Int) + (high.minute : Int))
  else
    hours0 * 60 + ((high.minute : Int) - (low.minute : Int))

/-- `SmartDiff` from `time.go`, as a duration in minutes. -/
def SmartDiff (start e : Time) : Int :=
  let startMinutes := MinutesFromDayBegin start EmptyTime
  let endMinutes := MinutesFromDayBegin e EmptyTime
  if endMinutes ≥ startMinutes then endMinutes - startMinutes
  else endMinutes + MinutesTillDayEnd start EmptyTime

/-- The `for i := 1; i <= 6; i++` loop of `RoundDownToFives`, iterating over
the successive values of `i` with break semantics. -/
def roundFivesGo (m : Nat) : List Nat → Nat
  | [] => m
  | i :: rest =>
    let base := i * 10
    if m < base then (if m ≤ base - 5 then base - 10 else base - 5)
    else roundFivesGo m rest

/-- `RoundDownToFives` from `time.go`. -/
def RoundDownToFives (t : Time) : Time :=
  NewTime (t.hour : Int) (roundFivesGo t.minute [1, 2, 3, 4, 5, 6] : Int)

/-- `RoundUpToFives` from `time.go`: add 5 minutes to the rounded-down time
(`NewFromTime` keeps only the shifted hour and minute). -/
def RoundUpToFives (t : Time) : Time :=
  addTimeMinutes (RoundDownToFives t) 5

/-- The four sorting priorities. -/
inductive SortingPriority where
  | LongAgoPriority
  | BeforePriority
  | AfterPriority
  | NotSoonPriority
deriving DecidableEq

/-- `GetTimeSortingPriority` from `time.go`. -/
def GetTimeSortingPriority (toCheck now dayStart : Time) : SortingPriority :=
  if IsArgBefore dayStart now then
    if IsBefore toCheck dayStart then
      if IsBefore toCheck now then .BeforePriority else .AfterPriority
    else .LongAgoPriority
  else
    if IsAfter toCheck dayStart then
      if IsBefore toCheck now then .BeforePriority else .AfterPriority
    else .NotSoonPriority

/-- Spec-side inclusive order on times of day: hour first, minute on ties. -/
def timeLe (a b : Time) : Prop :=
  a.hour < b.hour ∨ (a.hour = b.hour ∧ a.minute ≤ b.minute)

instance (a b : Time) : Decidable (timeLe a b) := by
  unfold timeLe; infer_instance

theorem isBefore_iff (a b : Time) : IsBefore a b = true ↔ timeLe a b := by
  unfold IsBefore timeLe
  split
  · simp; omega
  · split
    · simp; omega
    · simp; omega

theorem isArgBefore_iff (a b : Time) : IsArgBefore a b = true ↔ timeLe b a := by
  unfold IsArgBefore timeLe
  split
  · simp; omega
  · split
    · simp; omega
    · simp; omega

theorem timeLe_total (a b : Time) : timeLe a b ∨ timeLe b a := by
  unfold timeLe; omega

/-! ### String machinery shared by the parsers -/

/-- `strings.Split` with a one-character separator (`Split("", sep) = [""]`). -/
def splitOnChar (s : GoStr) (sep : Char) : List GoStr :=
  match s with
  | [] => [[]]
  | c :: rest =>
    let r := splitOnChar rest sep
    if c = sep then [] :: r
    else
      match r with
      | [] => [[c]]
      | h :: t => (c :: h) :: t

/-- `prepareNumber(s, false)` from `time.go`: keep the leading digit run. -/
def prepareNumber (s : GoStr) : GoStr :=
  match s with
  | [] => []
  | c :: rest =>
    if 48 ≤ c.toNat ∧ c.toNat ≤ 57 then c :: prepareNumber rest else []

/-- Digit-run accumulator for `strconv.Atoi`. -/
def parseDigitsAux (acc : Nat) : GoStr → Option Nat
  | [] => some acc
  | c :: rest =>
    if 48 ≤ c.toNat ∧ c.toNat ≤ 57 then parseDigitsAux (acc * 10 + (c.toNat - 48)) rest
    else none

/-- Parse a non-empty all-digit string to a natural number. -/
def parseDigits (s : GoStr) : Option Nat :=
  match s with
  | [] => none
  | _ => parseDigitsAux 0 s

/-- `strconv.Atoi`: optional single leading sign, then a digit run. -/
def atoi (s : GoStr) : Option Int :=
  match s with
  | [] => none
  | c :: rest =>
    if c = '+' then (parseDigits rest).map (fun n => (n : Int))
    else if c = '-' then (parseDigits rest).map (fun n => -(n : Int))
    else (parseDigits s).map (fun n => (n : Int))

/-- Whitespace recognizer used by `strings.TrimSpace`. -/
def isSpaceChar (c : Char) : Bool :=
  c = ' ' ∨ c = '\t' ∨ c = '\n' ∨ c = '\r'

/-- Drop leading whitespace. -/
def trimLeftSpaces : GoStr → GoStr
  | [] => []
  | c :: rest => if isSpaceChar c then trimLeftSpaces rest else c :: rest

/-- `strings.TrimSpace`. -/
def trimSpace (s : GoStr) : GoStr :=
  (trimLeftSpaces (trimLeftSpaces s).reverse).reverse

/-- `strings.Replace(input, "UTC", "", 1)`: remove the first occurrence. -/
def replaceFirstUTC : GoStr → GoStr
  | 'U' :: 'T' :: 'C' :: rest => rest
  | c :: rest => c :: replaceFirstUTC rest
  | [] => []

/-! ### ParseTime (`time.go`) -/

/-- The separator candidates of `ParseTime`, in source order. -/
def seps : List Char := [' ', ':', '-', '_', ',', '.']

/-- One iteration of the `ParseTime` separator loop. `none` means the
separator does not apply (the loop continues); `some r` means the loop body
runs to a `return` with result `r` (`some (some t)` success, `some none`
an error return). -/
def parseTimeAttempt (s : GoStr) (sep : Char) : Option (Option Time) :=
  let parts : Option (GoStr × GoStr) :=
    match splitOnChar s sep with
    | [a, b] => some (a, b)
    | _ => if s.length = 4 then some (s.take 2, s.drop 2) else none
  match parts with
  | none => none
  | some (hs, ms) =>
    some (match atoi (prepareNumber hs) with
      | none => none
      | some hour =>
        if hour < 0 ∨ hour > 23 then none
        else
          match atoi (prepareNumber ms) with
          | none => none
          | some minute =>
            if minute < 0 ∨ minute > 59 then none
            else some (NewTime hour minute))

/-- The separator loop of `ParseTime`. -/
def parseTimeLoop (s : GoStr) : List Char → Option Time
  | [] => none
  | sep :: rest =>
    match parseTimeAttempt s sep with
    | none => parseTimeLoop s rest
    | some r => r

/-- `ParseTime` from `time.go` (`none` models an error return). -/
def ParseTime (s : GoStr) : Option Time :=
  if s = [] then none else parseTimeLoop s seps

/-- First-applicable-attempt semantics: the result of the first separator
whose attempt runs (all earlier separators being skipped). -/
def specParseTime (s : GoStr) : Option Time :=
  if s = [] then none else (List.findSome? (parseTimeAttempt s) seps).join

/-! ### UTC offset grammar and Timezone constructors -/

/-- The characters `"UTC"`. -/
def utcChars : GoStr := ['U', 'T', 'C']

/-- Result of `ParseUTCOffset`: a fixed zone (name and offset in seconds),
an error return, or a runtime crash (index out of range on an input that
trims to the empty string). -/
inductive UTCRes where
  | ok (name : GoStr) (offset : Int)
  | err
  | crash
deriving DecidableEq

/-- The separator scan of `ParseUTCOffset`: split on space, falling back to
colon; exactly two tokens select (hours, minutes), three or more are an
error (`none`), one token means minutes default to `"0"`. -/
def splitHoursMinutes (input : GoStr) : Option (GoStr × GoStr) :=
  match splitOnChar input ' ' with
  | [h, m] => some (h, m)
  | _ :: _ :: _ :: _ => none
  | _ =>
    match splitOnChar input ':' with
    | [h, m] => some (h, m)
    | _ :: _ :: _ :: _ => none
    | _ => some (input, ['0'])

/-- `ParseUTCOffset` from the timezone source file. -/
def parseUTCOffset (input0 : GoStr) : UTCRes :=
  if input0 = [] then .err
  else
    match trimSpace (replaceFirstUTC input0) with
    | [] => .crash
    | c0 :: rest0 =>
      if (c0 = '+' ∨ c0 = '-') ∧ rest0 = [] then .err
      else
        let sign := if c0 = '+' ∨ c0 = '-' then c0 else '+'
        let input := if c0 = '+' ∨ c0 = '-' then rest0 else c0 :: rest0
        match splitHoursMinutes input with
        | none => .err
        | some (hoursS, minutesS) =>
          match atoi hoursS with
          | none => .err
          | some hoursInt =>
            let thresh : Int := if sign = '-' then 12 else 14
            if hoursInt > thresh then .err
            else
              match atoi minutesS with
              | none => .err
              | some minutesInt =>
                if ¬(minutesInt = 0 ∨ minutesInt = 30 ∨ minutesInt = 45) then .err
                else if minutesInt = 30 ∧ sign = '+' ∧
                    ¬(hoursInt = 3 ∨ hoursInt = 4 ∨ hoursInt = 5 ∨ hoursInt = 6 ∨
                      hoursInt = 9 ∨ hoursInt = 10) then .err
                else if minutesInt = 30 ∧ sign = '-' ∧ ¬(hoursInt = 3 ∨ hoursInt = 9) then .err
                else if minutesInt = 45 ∧ sign = '-' then .err
                else if minutesInt = 45 ∧ sign = '+' ∧
                    ¬(hoursInt = 5 ∨ hoursInt = 8 ∨ hoursInt = 12) then .err
                else
                  let signInt : Int := if sign = '-' then -1 else 1
                  let name := utcChars ++ sign ::
                    (hoursS ++ (if minutesInt > 0 then ':' :: minutesS else []))
                  .ok name (signInt * hoursInt * 3600 + signInt * minutesInt * 60)

/-- A `time.Location`: a zone name together with the offset in seconds that
`time.Now().In(loc).Zone()` reports for it. -/
structure Location where
  name : GoStr
  offset : Int
deriving DecidableEq

/-- The `Timezone` struct: a location handle and the offset in seconds. -/
structure Timezone where
  loc : Location
  offset : Int
deriving DecidableEq

/-- Decimal rendering of a natural number (`fmt.Sprintf` with the `d` verb),
via a structural fuel argument. -/
def natDigitsAux : Nat → Nat → GoStr
  | 0, _ => []
  | fuel + 1, n =>
    if n < 10 then [Char.ofNat (48 + n)]
    else natDigitsAux fuel (n / 10) ++ [Char.ofNat (48 + n % 10)]

/-- Decimal rendering of a natural number. -/
def natDigits (n : Nat) : GoStr := natDigitsAux (n + 1) n

/-- `NewTimezoneFromTime` from the timezone source file; its only input is
the zone offset of the given instant (`t.Zone()`). -/
def NewTimezoneFromTime (zoneOffset : Int) : Timezone :=
  let signChar := if zoneOffset < 0 then '-' else '+'
  let absOff : Nat := zoneOffset.natAbs
  let hours := absOff / 3600
  let minutes := absOff % 3600 / 60
  if hours = 0 then ⟨⟨utcChars, zoneOffset⟩, zoneOffset⟩
  else if minutes = 0 then
    ⟨⟨utcChars ++ signChar :: natDigits hours, zoneOffset⟩, zoneOffset⟩
  else
    ⟨⟨utcChars ++ signChar :: (natDigits hours ++ ':' :: natDigits minutes), zoneOffset⟩,
      zoneOffset⟩

/-- `NewTimezone` from the timezone source file: a `nil` location defaults
to UTC; otherwise the current instant in the location is sampled, so the
result depends only on the location's offset. -/
def NewTimezone (loc : Option Location) : Timezone :=
  match loc with
  | none => NewTimezoneFromTime 0
  | some l => NewTimezoneFromTime l.offset

/-- Result of `ParseTimezone`. -/
inductive TZRes where
  | ok (tz : Timezone)
  | err
  | crash
deriving DecidableEq

/-- `ParseTimezone` from the timezone source file, parameterized by the
external zone-database lookup (`time.LoadLocation`). -/
def ParseTimezone (lookup : GoStr → Option Location) (s : GoStr) : TZRes :=
  if s.length < 3 then .err
  else
    match lookup s with
    | some loc => .ok (NewTimezone (some loc))
    | none =>
      match parseUTCOffset s with
      | .ok name off => .ok (NewTimezone (some ⟨name, off⟩))
      | .err => .err
      | .crash => .crash

/-- A zone database in which no named-zone lookup succeeds. -/
def emptyLookup : GoStr → Option Location := fun _ => none

/-- Modelled from the spec: the set of real-world UTC offsets of section
4.1 — sign, hour magnitude capped at 14 for `+` and 12 for `-`, minutes one
of 0, 30 or 45, minute 30 only with hours 3,4,5,6,9,10 for `+` or 3,9 for
`-`, minute 45 only with sign `+` and hours 5,8,12. -/
def realOffsetRule (sgn : Int) (h m : Nat) : Prop :=
  (sgn = 1 ∨ sgn = -1) ∧
  (sgn = 1 → h ≤ 14) ∧ (sgn = -1 → h ≤ 12) ∧
  (m = 0 ∨ m = 30 ∨ m = 45) ∧
  (m = 30 → (sgn = 1 → h = 3 ∨ h = 4 ∨ h = 5 ∨ h = 6 ∨ h = 9 ∨ h = 10) ∧
            (sgn = -1 → h = 3 ∨ h = 9)) ∧
  (m = 45 → sgn = 1 ∧ (h = 5 ∨ h = 8 ∨ h = 12))

instance (sgn : Int) (h m : Nat) : Decidable (realOffsetRule sgn h m) := by
  unfold realOffsetRule; infer_instance

/-- Modelled from the spec: the offsets-in-seconds of real-world zones. -/
def specRealOffset (off : Int) : Prop :=
  ∃ sgn h m, realOffsetRule sgn h m ∧ off = sgn * ((h : Int) * 3600 + (m : Int) * 60)

/-- Modelled from the spec: reconstruction of the offset in seconds from a
canonical display string `UTC`, `UTC±H` or `UTC±H:MM`. -/
def decodeDisplay (s : GoStr) : Option Int :=
  match s with
  | 'U' :: 'T' :: 'C' :: rest =>
    match rest with
    | [] => some 0
    | c :: rest2 =>
      if c = '+' ∨ c = '-' then
        let sgn : Int := if c = '-' then -1 else 1
        match splitOnChar rest2 ':' with
        | [hs] => (parseDigits hs).map (fun h => sgn * ((h : Int) * 3600))
        | [hs, ms] =>
          (parseDigits hs).bind (fun h =>
            (parseDigits ms).map (fun m => sgn * ((h : Int) * 3600 + (m : Int) * 60)))
        | _ => none
      else none
  | _ => none

/-! ### Helper lemmas -/

theorem reduceDayAux_le (fuel n : Nat) (h : n ≤ fuel + 1440) : reduceDayAux fuel n ≤ 1440 := by
  induction fuel generalizing n with
  | zero => simpa [reduceDayAux] using h
  | succ f ih =>
    simp only [reduceDayAux]
    split
    · exact ih _ (by omega)
    · omega

theorem reduceDayAux_mod (fuel n : Nat) : reduceDayAux fuel n % 1440 = n % 1440 := by
  induction fuel generalizing n with
  | zero => rfl
  | succ f ih =>
    simp only [reduceDayAux]
    split
    · rw [ih]; omega
    · rfl

theorem reduceDayLoop_le (n : Nat) : reduceDayLoop n ≤ 1440 :=
  reduceDayAux_le n n (by omega)

theorem reduceDayLoop_mod (n : Nat) : reduceDayLoop n % 1440 = n % 1440 :=
  reduceDayAux_mod n n

theorem newTime_eq (h m : Nat) (hh : h < 24) (hm : m < 60) :
    NewTime (h : Int) (m : Int) = ⟨h, m⟩ := by
  simp only [NewTime, Time.mk.injEq]
  constructor <;> omega

theorem mfdb_empty (t : Time) :
    MinutesFromDayBegin t EmptyTime = (t.hour * 60 + t.minute : Int) := by
  simp only [MinutesFromDayBegin, EmptyTime]
  split <;> omega

theorem getPriority_eq (c now ds : Time) :
    GetTimeSortingPriority c now ds =
      if timeLe now ds then
        if timeLe c ds then
          (if timeLe c now then .BeforePriority else .AfterPriority)
        else .LongAgoPriority
      else
        if timeLe ds c then
          (if timeLe c now then .BeforePriority else .AfterPriority)
        else .NotSoonPriority := by
  unfold GetTimeSortingPriority IsAfter
  simp only [isArgBefore_iff, isBefore_iff]

/-! ### Claim C1 -/

/-- C1: refuted on the code. The spec's formula for `MinutesFromDayBegin`
in the wrap branch is `(24 − s.hour + t.hour)×60 + t.minute`; the source
computes `24 − s.hour − t.hour` instead. At t = 01:00, dayStart = 02:00
the code yields 1260 while the claimed formula yields 1380. -/
theorem minutesFromDayBegin_bug_eval :
    MinutesFromDayBegin ⟨1, 0⟩ ⟨2, 0⟩ = 1260 ∧
    ((24 - 2 + 1) * 60 + 0 : Int) = 1380 ∧
    MinutesFromDayBegin ⟨1, 0⟩ ⟨2, 0⟩ ≠ (24 - 2 + 1) * 60 + 0 := by
  refine ⟨by decide, by decide, by decide⟩

/-! ### Claim C2 -/

/-- C2, counterexample: with now = 00:15 and dayStart = 04:00, a candidate
exactly equal to dayStart is classified After, not Before. -/
theorem priority_dayStart_cex :
    GetTimeSortingPriority ⟨4, 0⟩ ⟨0, 15⟩ ⟨4, 0⟩ = .AfterPriority ∧
    GetTimeSortingPriority ⟨4, 0⟩ ⟨0, 15⟩ ⟨4, 0⟩ ≠ .BeforePriority := by
  refine ⟨by decide, by decide⟩

/-- C2, amended: a candidate exactly equal to now always yields Before; a
candidate exactly equal to dayStart yields Before when dayStart ≤ now and
After when now is strictly before dayStart. -/
theorem priority_self_and_dayStart (now ds : Time) :
    GetTimeSortingPriority now now ds = .BeforePriority ∧
    GetTimeSortingPriority ds now ds =
      (if timeLe ds now then .BeforePriority else .AfterPriority) := by
  constructor
  · rw [getPriority_eq]
    unfold timeLe
    split_ifs <;> first | rfl | omega
  · rw [getPriority_eq]
    unfold timeLe
    split_ifs <;> first | rfl | omega

/-! ### Claim C4 -/

/-- C4: `GetTimeSortingPriority` implements the two-case decision table:
when now ≤ dayStart it returns Before/After for candidates ≤ dayStart
(depending on candidate ≤ now) and LongAgo otherwise; when now > dayStart
it returns Before/After for candidates ≥ dayStart and NotSoon otherwise. -/
theorem getTimeSortingPriority_table (c now ds : Time) :
    GetTimeSortingPriority c now ds =
      if timeLe now ds then
        if timeLe c ds then
          (if timeLe c now then .BeforePriority else .AfterPriority)
        else .LongAgoPriority
      else
        if timeLe ds c then
          (if timeLe c now then .BeforePriority else .AfterPriority)
        else .NotSoonPriority :=
  getPriority_eq c now ds

/-! ### Claim C5 -/

/-- C5: for every valid time of day and every non-negative whole-minute
duration, `AddTime` produces the time with minute-of-day `(m + Δ) mod 1440`
and `SubTime` the time with minute-of-day `(m − Δ) mod 1440`, including
when the duration spans multiple days. -/
theorem addTime_subTime_spec (h m Δ : Nat) (hh : h < 24) (hm : m < 60) :
    AddTime ⟨h, m⟩ Δ = ⟨((h * 60 + m + Δ) % 1440) / 60, ((h * 60 + m + Δ) % 1440) % 60⟩ ∧
    SubTime ⟨h, m⟩ Δ =
      ⟨((((h * 60 + m : Nat) : Int) - (Δ : Int)) % 1440).toNat / 60,
       ((((h * 60 + m : Nat) : Int) - (Δ : Int)) % 1440).toNat % 60⟩ := by
  have hr1 : reduceDayLoop Δ ≤ 1440 := reduceDayLoop_le Δ
  have hr2 : reduceDayLoop Δ % 1440 = Δ % 1440 := reduceDayLoop_mod Δ
  have hmf : MinutesFromDayBegin ⟨h, m⟩ EmptyTime = ((h * 60 + m : Nat) : Int) := by
    rw [mfdb_empty]; push_cast; ring
  constructor
  · simp only [AddTime, MinutesTillDayEnd, hmf, addTimeMinutes, NewTime]
    split <;> (rw [Time.mk.injEq]; omega)
  · simp only [SubTime, hmf, addTimeMinutes, NewTime]
    split <;> (rw [Time.mk.injEq]; omega)

/-- C5 witness: at 10:30 plus and minus 25 hours (1500 minutes) the theorem
yields 11:30 and 09:30. -/
theorem addTime_subTime_spec_witness :
    AddTime ⟨10, 30⟩ 1500 = ⟨11, 30⟩ ∧ SubTime ⟨10, 30⟩ 1500 = ⟨9, 30⟩ := by
  have h := addTime_subTime_spec 10 30 1500 (by omega) (by omega)
  exact ⟨by rw [h.1], by rw [h.2]; decide⟩

/-! ### Claim C6 -/

/-- `RangeUp` computes the circular difference of the minute-of-day values. -/
theorem rangeUp_eq_mod (lh lm hh hm : Nat)
    (h1 : lh < 24) (h2 : lm < 60) (h3 : hh < 24) (h4 : hm < 60) :
    RangeUp ⟨lh, lm⟩ ⟨hh, hm⟩ =
      (((hh * 60 + hm : Nat) : Int) - ((lh * 60 + lm : Nat) : Int)) % 1440 := by
  simp only [RangeUp]
  split <;> split <;> (try split) <;> omega

/-- `SmartDiff` computes the circular difference of the minute-of-day values. -/
theorem smartDiff_eq_mod (lh lm hh hm : Nat)
    (h1 : lh < 24) (h2 : lm < 60) (h3 : hh < 24) (h4 : hm < 60) :
    SmartDiff ⟨lh, lm⟩ ⟨hh, hm⟩ =
      (((hh * 60 + hm : Nat) : Int) - ((lh * 60 + lm : Nat) : Int)) % 1440 := by
  simp only [SmartDiff, MinutesTillDayEnd, mfdb_empty]
  split <;> push_cast <;> omega

/-- C6: `RangeUp` and `SmartDiff` agree and both equal the circular
minute-of-day difference `(high − low) mod 1440`; the result lies in
`[0, 1439]`, is 0 exactly on equal times, and the two orientations sum to
1440 for distinct times. -/
theorem rangeUp_smartDiff_equiv (lh lm hh hm : Nat)
    (h1 : lh < 24) (h2 : lm < 60) (h3 : hh < 24) (h4 : hm < 60) :
    RangeUp ⟨lh, lm⟩ ⟨hh, hm⟩ = SmartDiff ⟨lh, lm⟩ ⟨hh, hm⟩ ∧
    RangeUp ⟨lh, lm⟩ ⟨hh, hm⟩ =
      (((hh * 60 + hm : Nat) : Int) - ((lh * 60 + lm : Nat) : Int)) % 1440 ∧
    0 ≤ RangeUp ⟨lh, lm⟩ ⟨hh, hm⟩ ∧ RangeUp ⟨lh, lm⟩ ⟨hh, hm⟩ ≤ 1439 ∧
    (Time.mk lh lm = Time.mk hh hm → RangeUp ⟨lh, lm⟩ ⟨hh, hm⟩ = 0) ∧
    (Time.mk lh lm ≠ Time.mk hh hm →
      RangeUp ⟨lh, lm⟩ ⟨hh, hm⟩ = 1440 - RangeUp ⟨hh, hm⟩ ⟨lh, lm⟩) := by
  have e1 := rangeUp_eq_mod lh lm hh hm h1 h2 h3 h4
  have e2 := smartDiff_eq_mod lh lm hh hm h1 h2 h3 h4
  have e3 := rangeUp_eq_mod hh hm lh lm h3 h4 h1 h2
  refine ⟨by rw [e1, e2], e1, by rw [e1]; omega, by rw [e1]; omega, ?_, ?_⟩
  · intro he
    simp only [Time.mk.injEq] at he
    rw [e1]; omega
  · intro hne
    simp only [ne_eq, Time.mk.injEq] at hne
    rw [e1, e3]; omega

/-- C6 witness: from 22:30 up to 01:45 both entry points give 195 minutes,
and the two orientations sum to 1440. -/
theorem rangeUp_smartDiff_equiv_witness :
    RangeUp ⟨22, 30⟩ ⟨1, 45⟩ = SmartDiff ⟨22, 30⟩ ⟨1, 45⟩ ∧
    RangeUp ⟨22, 30⟩ ⟨1, 45⟩ = 1440 - RangeUp ⟨1, 45⟩ ⟨22, 30⟩ := by
  have h := rangeUp_smartDiff_equiv 22 30 1 45 (by omega) (by omega) (by omega) (by omega)
  exact ⟨h.1, h.2.2.2.2.2 (by decide)⟩

/-! ### Claim C10 -/

/-- The rounding loop agrees with the `q×10 + (r ≤ 5 ? 0 : 5)` formula. -/
theorem roundFives_formula (m : Nat) (hm : m < 60) :
    roundFivesGo m [1, 2, 3, 4, 5, 6] = m / 10 * 10 + (if m % 10 ≤ 5 then 0 else 5) := by
  interval_cases m <;> rfl

/-- C10: `RoundDownToFives` keeps the hour and maps the minute to
`q×10 + (r ≤ 5 ? 0 : 5)` where `q = m div 10`, `r = m mod 10`; and
`RoundUpToFives` is the rounded-down time plus 5 minutes with carry,
wrapping past 23:59 to 00:00. -/
theorem roundFives_spec (h m : Nat) (hh : h < 24) (hm : m < 60) :
    RoundDownToFives ⟨h, m⟩ = ⟨h, m / 10 * 10 + (if m % 10 ≤ 5 then 0 else 5)⟩ ∧
    minuteOfDay (RoundUpToFives ⟨h, m⟩) =
      (minuteOfDay (RoundDownToFives ⟨h, m⟩) + 5) % 1440 := by
  have hr := roundFives_formula m hm
  have hdown : RoundDownToFives ⟨h, m⟩ = ⟨h, roundFivesGo m [1, 2, 3, 4, 5, 6]⟩ := by
    simp only [RoundDownToFives]
    exact newTime_eq h _ hh (by rw [hr]; split <;> omega)
  refine ⟨by rw [hdown, hr], ?_⟩
  rw [RoundUpToFives, hdown]
  simp only [addTimeMinutes, minuteOfDay]
  have : roundFivesGo m [1, 2, 3, 4, 5, 6] < 60 := by rw [hr]; split <;> omega
  omega

/-- C10 witness: minute 15 rounds down to 10 and rounding 10:15 up gives
minute-of-day 620 (10:20 is not produced; 10:10 + 5 = 10:15). -/
theorem roundFives_spec_witness :
    RoundDownToFives ⟨10, 15⟩ = ⟨10, 10⟩ ∧
    minuteOfDay (RoundUpToFives ⟨10, 15⟩) =
      (minuteOfDay (RoundDownToFives ⟨10, 15⟩) + 5) % 1440 := by
  have h := roundFives_spec 10 15 (by omega) (by omega)
  exact ⟨by rw [h.1]; decide, h.2⟩

/-! ### Claim C7 -/

/-- C7, counterexample: on `"10:99.30"` the colon attempt sees minute 99
and `ParseTime` returns an error at once, although the later separator
candidate `'.'` would succeed with 10:30. -/
theorem parseTime_sep_cex :
    ParseTime ['1', '0', ':', '9', '9', '.', '3', '0'] = none ∧
    parseTimeAttempt ['1', '0', ':', '9', '9', '.', '3', '0'] '.' = some (some ⟨10, 30⟩) ∧
    '.' ∈ seps := by
  refine ⟨by decide, by decide, by decide⟩

/-- C7, amended: `ParseTime` returns the result of the first separator
candidate that applies (splits the string into exactly two parts, or the
4-character fallback); an out-of-range hour or minute in that attempt is
returned as an error immediately, later separators being tried only when
the current one does not apply; an error results if no candidate applies. -/
theorem parseTime_first_applicable (s : GoStr) : ParseTime s = specParseTime s := by
  unfold ParseTime specParseTime
  have key : ∀ l : List Char,
      parseTimeLoop s l = (List.findSome? (parseTimeAttempt s) l).join := by
    intro l
    induction l with
    | nil => rfl
    | cons sep rest ih =>
      simp only [parseTimeLoop, List.findSome?]
      cases hstep : parseTimeAttempt s sep with
      | none => simpa [hstep] using ih
      | some r => simp [hstep]
  split
  · rfl
  · exact key seps

/-! ### Claim C3 -/

/-- C3: refuted on the code. `ParseUTCOffset` consumes at most one explicit
sign, but `Atoi` accepts a second sign inside the hours token, so the input
`"+-14"` is accepted with offset −50400 seconds (UTC−14), which is not a
real-world offset (the negative threshold is −12). The spec's boundary
examples themselves hold. -/
theorem parseUTCOffset_accepts_nonreal :
    parseUTCOffset ['+', '-', '1', '4'] = .ok ['U', 'T', 'C', '+', '-', '1', '4'] (-50400) ∧
    ¬ specRealOffset (-50400) ∧
    parseUTCOffset ['+', '3', ' ', '3', '0'] =
      .ok ['U', 'T', 'C', '+', '3', ':', '3', '0'] 12600 ∧
    parseUTCOffset ['+', '1', '4'] = .ok ['U', 'T', 'C', '+', '1', '4'] 50400 ∧
    parseUTCOffset ['+', '3', ' ', '3', '1'] = .err ∧
    parseUTCOffset ['-', '1', '4'] = .err := by
  refine ⟨by decide, ?_, by decide, by decide, by decide, by decide⟩
  rintro ⟨sgn, hN, mN, ⟨hsgn, hp, hn, hm, h30, h45⟩, heq⟩
  rcases hsgn with rfl | rfl
  · rcases hm with rfl | rfl | rfl
    · push_cast at heq; omega
    · have hh := (h30 rfl).1 rfl
      push_cast at heq; omega
    · have hh := (h45 rfl).2
      push_cast at heq; omega
  · rcases hm with rfl | rfl | rfl
    · have hh := hn rfl
      push_cast at heq; omega
    · have hh := (h30 rfl).2 rfl
      push_cast at heq; omega
    · have hh := (h45 rfl).1
      omega

/-! ### Claim C8 -/

/-- C8, counterexample: `NewTimezoneFromTime` applied to an instant whose
zone offset is 1800 seconds produces a Timezone with offset 1800 whose
display string is plain `UTC`; 1800 s (+0:30) is not a real-world offset
and the display string decodes to 0, not 1800. -/
theorem timezone_invariant_cex :
    NewTimezoneFromTime 1800 = ⟨⟨utcChars, 1800⟩, 1800⟩ ∧
    ¬ specRealOffset 1800 ∧
    decodeDisplay (NewTimezoneFromTime 1800).loc.name = some 0 := by
  refine ⟨by decide, ?_, by decide⟩
  rintro ⟨sgn, hN, mN, ⟨hsgn, hp, hn, hm, h30, h45⟩, heq⟩
  rcases hsgn with rfl | rfl
  · rcases hm with rfl | rfl | rfl
    · push_cast at heq; omega
    · have hh := (h30 rfl).1 rfl
      push_cast at heq; omega
    · have hh := (h45 rfl).2
      push_cast at heq; omega
  · rcases hm with rfl | rfl | rfl
    · push_cast at heq; omega
    · have hh := (h30 rfl).2 rfl
      push_cast at heq; omega
    · have hh := (h45 rfl).1
      omega

/-- C8, amended: a Timezone built (by `NewTimezoneFromTime`, hence by
`NewTimezone` or by `ParseTimezone`'s offset fallback) from a zone offset
in the real-world set carries exactly that offset, and the offset is
exactly reconstructible from its display string; the constructors
themselves perform no validation, so the invariant is only guaranteed on
that set. -/
theorem timezone_real_offset_invariant (off : Int) (hoff : specRealOffset off) :
    (NewTimezoneFromTime off).offset = off ∧
    decodeDisplay (NewTimezoneFromTime off).loc.name = some off := by
  obtain ⟨sgn, hN, mN, ⟨hsgn, hp, hn, hm, h30, h45⟩, heq⟩ := hoff
  rcases hsgn with rfl | rfl
  · rcases hm with rfl | rfl | rfl
    · have hb : hN ≤ 14 := hp rfl
      subst heq
      interval_cases hN <;> decide
    · have hb := (h30 rfl).1 rfl
      subst heq
      rcases hb with rfl | rfl | rfl | rfl | rfl | rfl <;> decide
    · have hb := (h45 rfl).2
      subst heq
      rcases hb with rfl | rfl | rfl <;> decide
  · rcases hm with rfl | rfl | rfl
    · have hb : hN ≤ 12 := hn rfl
      subst heq
      interval_cases hN <;> decide
    · have hb := (h30 rfl).2 rfl
      subst heq
      rcases hb with rfl | rfl <;> decide
    · exact absurd (h45 rfl).1 (by decide)

/-- C8 witness: the real-world offset +3:30 (12600 s) round-trips through
the constructor and its display string `UTC+3:30`. -/
theorem timezone_real_offset_invariant_witness :
    specRealOffset 12600 ∧
    (NewTimezoneFromTime 12600).offset = 12600 ∧
    decodeDisplay (NewTimezoneFromTime 12600).loc.name = some 12600 := by
  have hs : specRealOffset 12600 := ⟨1, 3, 30, by decide, by decide⟩
  have h := timezone_real_offset_invariant 12600 hs
  exact ⟨hs, h.1, h.2⟩

/-! ### Claim C9 -/

/-- C9, counterexample: `"+3"` has fewer than 3 characters, so
`ParseTimezone` rejects it before ever consulting the offset grammar, even
though `ParseUTCOffset` accepts it (offset +10800 s) and the named-zone
lookup fails on it. -/
theorem parseTimezone_short_cex :
    ParseTimezone emptyLookup ['+', '3'] = .err ∧
    emptyLookup ['+', '3'] = none ∧
    parseUTCOffset ['+', '3'] = .ok ['U', 'T', 'C', '+', '3'] 10800 := by
  refine ⟨by decide, rfl, by decide⟩

/-- C9, amended: for inputs of length at least 3 on which the named-zone
lookup fails, `ParseTimezone` falls back to the offset grammar, succeeding
exactly when `ParseUTCOffset` accepts, and returning an error exactly when
`ParseUTCOffset` errors. -/
theorem parseTimezone_fallback (lookup : GoStr → Option Location) (s : GoStr)
    (hlen : 3 ≤ s.length) (hlk : lookup s = none) :
    (∀ name off, parseUTCOffset s = .ok name off →
      ParseTimezone lookup s = .ok (NewTimezoneFromTime off)) ∧
    (ParseTimezone lookup s = .err ↔ parseUTCOffset s = .err) := by
  unfold ParseTimezone
  rw [if_neg (by omega), hlk]
  cases hp : parseUTCOffset s with
  | ok nm off =>
    refine ⟨?_, by simp⟩
    intro name off2 hok
    injection hok with h1 h2
    subst h2
    simp [NewTimezone]
  | err =>
    refine ⟨?_, by simp⟩
    intro name off hok
    cases hok
  | crash =>
    refine ⟨?_, by simp⟩
    intro name off hok
    cases hok

/-- C9 witness: with an empty zone database, `"UTC+2"` (length 5) reaches
the offset fallback and succeeds with offset +7200 s. -/
theorem parseTimezone_fallback_witness :
    ParseTimezone emptyLookup ['U', 'T', 'C', '+', '2'] = .ok (NewTimezoneFromTime 7200) := by
  exact (parseTimezone_fallback emptyLookup ['U', 'T', 'C', '+', '2']
    (by decide) rfl).1 ['U', 'T', 'C', '+', '2'] 7200 (by decide)

end Datetime
